import Mathlib

/-!
A shallow embedding of the MongoDB view catalog
(`src/mongo/db/views/view_catalog.cpp`) together with proofs about its
behaviour.  The catalog's own logic (lazy reload, create/modify, graph
upsert, lookup, resolution) is translated directly from the source file.
External collaborators that the source file only calls into
(`DurableViewCatalog`, `ViewGraph`, `Pipeline::parse`,
`NamespaceString::validCollectionName`, and the recovery unit's
rollback/commit reactions) are modelled from the specification and are
marked as such in their doc comments.
-/

set_option autoImplicit false

deriving instance DecidableEq for Except

namespace MongoViewCatalog

/-- Error kinds returned by catalog operations.  Constructor names follow
the `ErrorCodes` values used by the source; the spec's taxonomy maps onto
them (`FeatureDisabled` ↦ `commandNotSupported`, `InvalidArgument` ↦
`badValue`, `AlreadyExists` ↦ `namespaceExists`, `NotFound` ↦
`namespaceNotFound`, `GraphCycleOrTooDeep` ↦ `graphCycleOrTooDeep`).
`invalidPipeline` stands for the uassert with code 40255 raised when a
validated insert fails to parse; `pipelineParseError` is the status the
pipeline resolver itself returns. -/
inductive Err where
  | commandNotSupported
  | badValue
  | namespaceExists
  | invalidNamespace
  | namespaceNotFound
  | graphCycleOrTooDeep
  | viewDepthLimitExceeded
  | invalidPipeline (tag : String)
  | pipelineParseError (tag : String)
  | storeIOError
deriving DecidableEq

/-- A fully qualified namespace: database name plus collection name. -/
structure NamespaceString where
  db : String
  coll : String
deriving DecidableEq

/-- `NamespaceString::ns()`: the full `<db>.<coll>` string. -/
def NamespaceString.ns (n : NamespaceString) : String := n.db ++ "." ++ n.coll

/-- Modelled from the spec: a pipeline stage is an opaque document, of
which the catalog observes only (a) whether its first field is
`$collStats` (checked by the resolver) and (b) the verdict of the
external `PipelineResolver` on it: the namespaces it involves and whether
the resolver rejects it.  Those observations are carried as fields of the
stage value; `tag` identifies the stage document itself. -/
structure Stage where
  tag : String
  collStats : Bool
  refs : List NamespaceString
  malformed : Bool
deriving DecidableEq

/-- `ViewDefinition` (from `mongo/db/views/view.h`, reconstructed per the
spec's data model): database, view collection name, target collection
name (same database), and the pipeline stages. -/
structure ViewDefinition where
  db : String
  viewName : String
  viewOnName : String
  pipeline : List Stage
deriving DecidableEq

/-- `ViewDefinition::name()`: the fully qualified view namespace. -/
def ViewDefinition.nameNss (v : ViewDefinition) : NamespaceString :=
  ⟨v.db, v.viewName⟩

/-- `ViewDefinition::viewOn()`: the fully qualified target namespace. -/
def ViewDefinition.viewOnNss (v : ViewDefinition) : NamespaceString :=
  ⟨v.db, v.viewOnName⟩

/-- Association-list lookup keyed by string (the source keys its maps by
the full namespace string). -/
def lookupKey {α : Type} (m : List (String × α)) (k : String) : Option α :=
  (m.find? (fun p => p.1 == k)).map (·.2)

/-- Insert-or-replace for a string-keyed association list
(`map[k] = v`). -/
def mapInsert {α : Type} (m : List (String × α)) (k : String) (v : α) :
    List (String × α) :=
  (k, v) :: m.filter (fun p => p.1 != k)

/-- Erase for a string-keyed association list (`map.erase(k)`). -/
def mapErase {α : Type} (m : List (String × α)) (k : String) :
    List (String × α) :=
  m.filter (fun p => p.1 != k)

/-- A persisted view document, shape
`{_id: <db>.<coll>, viewOn: <coll>, pipeline: [...]}`; the `_id`
namespace is kept in structured form. -/
structure ViewDoc where
  idNs : NamespaceString
  viewOnName : String
  pipeline : List Stage
deriving DecidableEq

/-- Modelled from the spec: the external `DurableViewCatalog`.  `docs`
are the persisted view documents keyed by full namespace; `iterate`
delivers the documents in order, but if `failAfter = some (k, e)` it
delivers only the first `k` documents and then fails with `e` (the
store-scan failure the spec calls `StoreIOError`). -/
structure DurableStore where
  docs : List (String × ViewDoc)
  failAfter : Option (Nat × Err)
deriving DecidableEq

/-- The documents a durable-store iteration actually delivers. -/
def DurableStore.delivered (d : DurableStore) : List ViewDoc :=
  match d.failAfter with
  | none => d.docs.map (·.2)
  | some (k, _) => (d.docs.map (·.2)).take k

/-- `DurableViewCatalog::upsert`. -/
def DurableStore.upsert (d : DurableStore) (k : String) (doc : ViewDoc) :
    DurableStore :=
  { d with docs := mapInsert d.docs k doc }

/-- Modelled from the spec: the dependency graph, a map from each view's
full namespace to the namespaces its pipeline references (including its
`viewOn` target).  The source file only calls `ViewGraph`'s interface;
`view_graph.h` is not under `src/`. -/
def ViewGraph : Type := List (String × List NamespaceString)

instance : DecidableEq ViewGraph := by
  unfold ViewGraph; infer_instance

/-- `ViewGraph::kMaxViewDepth`.  Modelled from the spec: the
`MAX_VIEW_DEPTH` constant ("e.g. 20"; 20 is the upstream value). -/
def kMaxViewDepth : Nat := 20

/-- Modelled from the spec: the bounded cycle/depth check run after a
validated insert — a depth-first walk from a node following edges,
counting hops, failing if a node on the current path is revisited before
reaching a terminal (non-view) namespace or if the depth bound runs out.
`fuel` is the number of nodes that may still be visited on the path, so
starting it at `kMaxViewDepth + 1` lets a chain reach a terminal within
`kMaxViewDepth` hops. -/
def graphCheck (g : ViewGraph) : Nat → List String → String → Bool
  | 0, _, _ => false
  | fuel + 1, visited, n =>
    if visited.contains n then false
    else
      match lookupKey g n with
      | none => true
      | some refs => refs.all (fun r => graphCheck g fuel (n :: visited) r.ns)

/-- Modelled from the spec: `ViewGraph::insertAndValidate` — insert the
edges for the view, run the bounded cycle/depth check from it, and on
failure roll the inserted edges back and return
`GraphCycleOrTooDeep`. -/
def insertAndValidate (g : ViewGraph) (name : NamespaceString)
    (refs : List NamespaceString) : Except Err Unit × ViewGraph :=
  let g' := mapInsert g name.ns refs
  if graphCheck g' (kMaxViewDepth + 1) [] name.ns then (.ok (), g')
  else (.error .graphCycleOrTooDeep, mapErase g' name.ns)

/-- Modelled from the spec: `ViewGraph::insertWithoutValidating`, the
trusted bulk-insert used during refresh. -/
def insertWithoutValidating (g : ViewGraph) (name : NamespaceString)
    (refs : List NamespaceString) : ViewGraph :=
  mapInsert g name.ns refs

/-- The in-memory catalog state owned by `ViewCatalog`: the view map, the
validity flag `_valid`, the dependency graph `_viewGraph`, and
`_viewGraphNeedsRefresh`. -/
structure ViewCatalog where
  viewMap : List (String × ViewDefinition)
  valid : Bool
  viewGraph : ViewGraph
  viewGraphNeedsRefresh : Bool
deriving DecidableEq

/-- Modelled from the spec: the ambient transaction (recovery unit) as
the lists of rollback and commit reactions registered so far.  Reactions
mutate only the in-memory catalog state, as the registered lambdas in the
source do. -/
structure Txn where
  rollbackReactions : List (ViewCatalog → ViewCatalog)
  commitReactions : List (ViewCatalog → ViewCatalog)

/-- The full state an operation threads: catalog, durable store and the
ambient transaction. -/
structure S where
  cat : ViewCatalog
  durable : DurableStore
  txn : Txn

/-- Reconstructing a `ViewDefinition` from a persisted document, as the
reload callback does. -/
def defOfDoc (doc : ViewDoc) : ViewDefinition :=
  ⟨doc.idNs.db, doc.idNs.coll, doc.viewOnName, doc.pipeline⟩

/-- Installing a list of persisted documents into an empty cache, in
delivery order (the body of the `iterate` callback). -/
def installDocs (ds : List ViewDoc) : List (String × ViewDefinition) :=
  ds.foldl (fun m doc => mapInsert m doc.idNs.ns (defOfDoc doc)) []

/-- `ViewCatalog::_reloadIfNeeded_inlock`: if the catalog is valid this
is a no-op; otherwise clear the cache, iterate the durable store
installing a definition per delivered document, and store
`status.isOK()` into the validity flag. -/
def reloadIfNeeded_inlock (s : S) : Except Err Unit × S :=
  if s.cat.valid then (.ok (), s)
  else
    let m := s.durable.delivered.foldl
      (fun m doc => mapInsert m doc.idNs.ns (defOfDoc doc)) []
    match s.durable.failAfter with
    | none => (.ok (), { s with cat := { s.cat with viewMap := m, valid := true } })
    | some (_, e) =>
        (.error e, { s with cat := { s.cat with viewMap := m, valid := false } })

/-- `ViewCatalog::reloadIfNeeded` (the lock is a no-op in this
sequential model). -/
def reloadIfNeeded (s : S) : Except Err Unit × S := reloadIfNeeded_inlock s

/-- Modelled from the spec: `PipelineResolver.parse` — fails on the first
stage the resolver rejects, otherwise returns the involved namespaces of
all stages (`Pipeline::parse` followed by `getInvolvedCollections`). -/
def pipelineParse (ps : List Stage) : Except Err (List NamespaceString) :=
  match ps.find? (·.malformed) with
  | some st => .error (.pipelineParseError st.tag)
  | none => .ok (ps.foldr (fun st acc => st.refs ++ acc) [])

/-- The `doInsert` lambda of `ViewCatalog::_upsertIntoGraph`: parse the
view's pipeline; on a parse failure, a validated insert raises the
40255 uassert while an unvalidated (refresh) insert returns the parse
status; on success, append the `viewOn` target to the involved
namespaces and insert into the graph, validating or not. -/
def doInsert (vd : ViewDefinition) (needsValidation : Bool) (s : S) :
    Except Err Unit × S :=
  match pipelineParse vd.pipeline with
  | .error e =>
      if needsValidation then (.error (.invalidPipeline vd.nameNss.ns), s)
      else (.error e, s)
  | .ok involved =>
      let refs := involved ++ [vd.viewOnNss]
      if needsValidation then
        match insertAndValidate s.cat.viewGraph vd.nameNss refs with
        | (.ok _, g) => (.ok (), { s with cat := { s.cat with viewGraph := g } })
        | (.error e, g) => (.error e, { s with cat := { s.cat with viewGraph := g } })
      else
        (.ok (), { s with cat := { s.cat with
          viewGraph := insertWithoutValidating s.cat.viewGraph vd.nameNss refs } })

/-- The refresh loop of `_upsertIntoGraph`: replay every cached view
through the unvalidated insert path, stopping at the first failure. -/
def replayViews (views : List (String × ViewDefinition)) (s : S) :
    Except Err Unit × S :=
  match views with
  | [] => (.ok (), s)
  | (_, vd) :: rest =>
      match doInsert vd false s with
      | (.ok _, s') => replayViews rest s'
      | (.error e, s') => (.error e, s')

/-- `ViewCatalog::_upsertIntoGraph`: if the graph is stale, clear it and
replay all cached views (keeping `_viewGraphNeedsRefresh` set if any
replay fails, clearing it only after all succeed); then remove any
existing node for the view and perform the validated insert. -/
def upsertIntoGraph (vd : ViewDefinition) (s : S) : Except Err Unit × S :=
  let step1 : Except Err Unit × S :=
    if s.cat.viewGraphNeedsRefresh then
      let s0 := { s with cat := { s.cat with viewGraph := [] } }
      match replayViews s0.cat.viewMap s0 with
      | (.ok _, s1) =>
          (.ok (), { s1 with cat := { s1.cat with viewGraphNeedsRefresh := false } })
      | (.error e, s1) => (.error e, s1)
    else (.ok (), s)
  match step1 with
  | (.error e, s1) => (.error e, s1)
  | (.ok _, s1) =>
      let s2 := { s1 with cat := { s1.cat with
        viewGraph := mapErase s1.cat.viewGraph vd.nameNss.ns } }
      doInsert vd true s2

/-- `ViewCatalog::_createOrUpdateView_inlock`: build the candidate
definition and document, validate against the graph (aborting on
failure), then write through to the durable store, install into the
cache, and register the rollback reaction (erase the cache entry, mark
the graph stale) and the commit reaction (restore validity). -/
def createOrUpdateView_inlock (viewName viewOn : NamespaceString)
    (pipeline : List Stage) (s : S) : Except Err Unit × S :=
  match upsertIntoGraph ⟨viewName.db, viewName.coll, viewOn.coll, pipeline⟩ s with
  | (.error e, s1) => (.error e, s1)
  | (.ok _, s1) =>
      (.ok (), { s1 with
        durable := s1.durable.upsert viewName.ns ⟨viewName, viewOn.coll, pipeline⟩,
        cat := { s1.cat with
          viewMap := mapInsert s1.cat.viewMap viewName.ns
              (⟨viewName.db, viewName.coll, viewOn.coll, pipeline⟩ : ViewDefinition) },
        txn := { s1.txn with
          rollbackReactions := s1.txn.rollbackReactions ++
            [fun c => { c with viewMap := mapErase c.viewMap viewName.ns,
                               viewGraphNeedsRefresh := true }],
          commitReactions := s1.txn.commitReactions ++
            [fun c => { c with valid := true }] } })

/-- `ViewCatalog::_lookup_inlock`: reload if needed (propagating a
reload failure, as `uassertStatusOK` does), then look the namespace up in
the cache. -/
def lookup_inlock (ns : String) (s : S) :
    Except Err (Option ViewDefinition) × S :=
  match reloadIfNeeded_inlock s with
  | (.error e, s') => (.error e, s')
  | (.ok _, s') => (.ok (lookupKey s'.cat.viewMap ns), s')

/-- `ViewCatalog::lookup`. -/
def lookup (ns : String) (s : S) : Except Err (Option ViewDefinition) × S :=
  lookup_inlock ns s

/-- `ViewCatalog::createView`: the feature gate, the same-database check,
the existing-namespace check (a cache lookup), and the collection-name
check, in that order, before the shared create-or-update path.
`enable` is the startup-only `enableViews` toggle and `validName` stands
for the external `NamespaceString::validCollectionName`. -/
def createView (enable : Bool) (validName : String → Bool)
    (viewName viewOn : NamespaceString) (pipeline : List Stage) (s : S) :
    Except Err Unit × S :=
  if !enable then (.error .commandNotSupported, s)
  else if viewName.db != viewOn.db then (.error .badValue, s)
  else
    match lookup_inlock viewName.ns s with
    | (.error e, s') => (.error e, s')
    | (.ok (some _), s') => (.error .namespaceExists, s')
    | (.ok none, s') =>
        if !validName viewOn.coll then (.error .invalidNamespace, s')
        else createOrUpdateView_inlock viewName viewOn pipeline s'

/-- `ViewCatalog::modifyView`: same-database check, existence check,
collection-name check; then capture the old definition, register the
rollback reaction restoring it, and delegate to the shared
create-or-update path. -/
def modifyView (validName : String → Bool)
    (viewName viewOn : NamespaceString) (pipeline : List Stage) (s : S) :
    Except Err Unit × S :=
  if viewName.db != viewOn.db then (.error .badValue, s)
  else
    match lookup_inlock viewName.ns s with
    | (.error e, s') => (.error e, s')
    | (.ok none, s') => (.error .namespaceNotFound, s')
    | (.ok (some savedDefinition), s') =>
        if !validName viewOn.coll then (.error .invalidNamespace, s')
        else
          let s1 : S := { s' with txn := { s'.txn with
            rollbackReactions := s'.txn.rollbackReactions ++
              [fun c => { c with
                viewMap := mapInsert c.viewMap viewName.ns savedDefinition }] } }
          createOrUpdateView_inlock viewName viewOn pipeline s1

/-- The loop body of `ViewCatalog::resolveView`, with the remaining
iteration count explicit: look the namespace up (a miss means a physical
collection and ends the walk), prepend the found view's pipeline, return
early if its first stage has a `$collStats` field, otherwise continue
from the view's `viewOn`. -/
def resolveViewLoop : Nat → NamespaceString → List Stage → S →
    Except Err (NamespaceString × List Stage) × S
  | 0, _, _, s => (.error .viewDepthLimitExceeded, s)
  | fuel + 1, nss, acc, s =>
      match lookup_inlock nss.ns s with
      | (.error e, s') => (.error e, s')
      | (.ok none, s') => (.ok (nss, acc), s')
      | (.ok (some view), s') =>
          let acc' := view.pipeline ++ acc
          match view.pipeline with
          | st :: _ =>
              if st.collStats then (.ok (view.viewOnNss, acc'), s')
              else resolveViewLoop fuel view.viewOnNss acc' s'
          | [] => resolveViewLoop fuel view.viewOnNss acc' s'

/-- `ViewCatalog::resolveView`: walk at most `kMaxViewDepth` hops,
failing with `ViewDepthLimitExceeded` if the loop exhausts them. -/
def resolveView (nss : NamespaceString) (s : S) :
    Except Err (NamespaceString × List Stage) × S :=
  resolveViewLoop kMaxViewDepth nss [] s

/-- Applying a list of reactions to the catalog, first registered
first. -/
def applyReactions (rs : List (ViewCatalog → ViewCatalog)) (c : ViewCatalog) :
    ViewCatalog :=
  rs.foldl (fun c r => r c) c

/-- Modelled from the spec: transaction abort with the spec's stated
reaction discipline — rollback reactions are invoked at most once, in
registration order. -/
def abortTxnInRegistrationOrder (s : S) : S :=
  { cat := applyReactions s.txn.rollbackReactions s.cat,
    durable := s.durable, txn := ⟨[], []⟩ }

/-- Transaction abort invoking the rollback reactions in reverse
registration order (last registered first), the discipline the upstream
recovery unit actually implements and the one the amended rollback claim
is stated against. -/
def abortTxnInReverseOrder (s : S) : S :=
  { cat := applyReactions s.txn.rollbackReactions.reverse s.cat,
    durable := s.durable, txn := ⟨[], []⟩ }

/-- The error kinds a failed dependency-graph validation
(`_upsertIntoGraph`) can produce: the cycle/depth rejection, the 40255
uassert of a validated insert with an unparseable pipeline, and the
parse failures surfaced by the refresh replay. -/
def isValidationErr : Err → Bool
  | .graphCycleOrTooDeep => true
  | .invalidPipeline _ => true
  | .pipelineParseError _ => true
  | _ => false

/-- The parse failure (tag of first rejected stage) of the first cached
view, in iteration order, whose pipeline the resolver rejects — the
failure the refresh replay stops at. -/
def firstReplayError : List (String × ViewDefinition) → Option String
  | [] => none
  | (_, vd) :: rest =>
      match vd.pipeline.find? (·.malformed) with
      | some st => some st.tag
      | none => firstReplayError rest

/-! ### A family of view chains, for the resolution depth bound -/

/-- The collection name of the `i`-th chain view: `i + 1` copies of
`x` (length makes the names pairwise distinct). -/
def chainColl (i : Nat) : String := String.mk (List.replicate (i + 1) 'x')

/-- The namespace of the `i`-th chain view (database `d`). -/
def chainNss (i : Nat) : NamespaceString := ⟨"d", chainColl i⟩

/-- The `i`-th chain view: defined over the next chain namespace, with
the single pipeline stage `st`. -/
def chainDef (i : Nat) (st : Stage) : ViewDefinition :=
  ⟨"d", chainColl i, chainColl (i + 1), [st]⟩

/-- The cache holding chain views `0 … n-1`; view `n-1` points at
namespace `n`, which is not in the map and hence physical. -/
def chainMap : Nat → Stage → List (String × ViewDefinition)
  | 0, _ => []
  | n + 1, st => ((chainNss n).ns, chainDef n st) :: chainMap n st

/-- A valid catalog whose cache is exactly a chain of `n` views. -/
def chainState (n : Nat) (st : Stage) : S :=
  { cat := { viewMap := chainMap n st, valid := true,
             viewGraph := [], viewGraphNeedsRefresh := false },
    durable := ⟨[], none⟩, txn := ⟨[], []⟩ }

/-! ### Concrete states used by witnesses and counterexamples -/

/-- An ordinary stage with no `$collStats` field, no involved namespaces
and a well-formed document. -/
def plainStage (t : String) : Stage := ⟨t, false, [], false⟩

/-- A stage whose first field is `$collStats`. -/
def collStatsStage : Stage := ⟨"cs", true, [], false⟩

/-- An empty ambient transaction. -/
def emptyTxn : Txn := ⟨[], []⟩

/-- A durable store with no documents and healthy iteration. -/
def emptyStore : DurableStore := ⟨[], none⟩

/-- Catalog for the two-view resolution-composition example: view `d.A`
over `d.B` with pipeline `[s1]`, view `d.B` over the physical collection
`d.C` with pipeline `[s2]`. -/
def chainABState (s1 s2 : Stage) : S :=
  { cat := { viewMap := [("d.A", ⟨"d", "A", "B", [s1]⟩),
                         ("d.B", ⟨"d", "B", "C", [s2]⟩)],
             valid := true, viewGraph := [], viewGraphNeedsRefresh := false },
    durable := emptyStore, txn := emptyTxn }

/-- The existing definition of view `d.v` (pipeline `[p1]`, over `d.c0`)
in the rollback scenario. -/
def rollbackOldDef : ViewDefinition := ⟨"d", "v", "c0", [plainStage "p1"]⟩

/-- Catalog state for the rollback scenario: one view `d.v` with
pipeline `[p1]`, consistent durable store, valid cache, fresh graph,
empty transaction. -/
def rollbackState : S :=
  { cat := { viewMap := [("d.v", rollbackOldDef)],
             valid := true,
             viewGraph := [("d.v", [⟨"d", "c0"⟩])],
             viewGraphNeedsRefresh := false },
    durable := ⟨[("d.v", ⟨⟨"d", "v"⟩, "c0", [plainStage "p1"]⟩)], none⟩,
    txn := emptyTxn }

/-- Catalog state with an invalid cache holding a stale entry `d.x` that
the durable store does not contain. -/
def staleCacheState : S :=
  { cat := { viewMap := [("d.x", ⟨"d", "x", "c", []⟩)],
             valid := false, viewGraph := [], viewGraphNeedsRefresh := false },
    durable := emptyStore, txn := emptyTxn }

/-- Catalog state for the failed-update graph scenario: the graph holds
the node for view `d.a` with its current edge to `d.b`. -/
def graphUpdateState : S :=
  { cat := { viewMap := [("d.a", ⟨"d", "a", "b", []⟩)],
             valid := true,
             viewGraph := [("d.a", [⟨"d", "b"⟩])],
             viewGraphNeedsRefresh := false },
    durable := emptyStore, txn := emptyTxn }

/-- The self-referential update of view `d.a` (now over itself) that the
cycle check must reject. -/
def selfRefUpdate : ViewDefinition := ⟨"d", "a", "a", []⟩

/-- Catalog for the `$collStats` short-circuit example: view `d.V` over
`d.C` with pipeline `[{$collStats}]`, where `d.C` is itself a view over
`d.D`. -/
def collStatsState : S :=
  { cat := { viewMap := [("d.V", ⟨"d", "V", "C", [collStatsStage]⟩),
                         ("d.C", ⟨"d", "C", "D", [plainStage "s3"]⟩)],
             valid := true, viewGraph := [], viewGraphNeedsRefresh := false },
    durable := emptyStore, txn := emptyTxn }

/-- An invalid catalog over a store holding two documents whose
iteration fails after delivering the first. -/
def failingStoreState : S :=
  { cat := { viewMap := [], valid := false, viewGraph := [], viewGraphNeedsRefresh := false },
    durable := ⟨[("d.v", ⟨⟨"d", "v"⟩, "c", []⟩), ("d.w", ⟨⟨"d", "w"⟩, "c", []⟩)],
                some (1, .storeIOError)⟩,
    txn := emptyTxn }

/-- Catalog whose graph is stale (`needsRefresh` set) and whose cache
holds a view `d.w` with a pipeline stage the resolver rejects. -/
def staleGraphState : S :=
  { cat := { viewMap := [("d.w", ⟨"d", "w", "c", [⟨"bad", false, [], true⟩]⟩)],
             valid := true, viewGraph := [], viewGraphNeedsRefresh := true },
    durable := emptyStore, txn := emptyTxn }

/-! ### Helper lemmas -/

theorem lookupKey_mapInsert_self {α : Type} (m : List (String × α)) (k : String) (v : α) :
    lookupKey (mapInsert m k v) k = some v := by
  simp [lookupKey, mapInsert, List.find?]

theorem mapErase_mapInsert {α : Type} (m : List (String × α)) (k : String) (v : α) :
    mapErase (mapInsert m k v) k = mapErase m k := by
  simp [mapErase, mapInsert, List.filter_filter]

theorem mapErase_idem {α : Type} (m : List (String × α)) (k : String) :
    mapErase (mapErase m k) k = mapErase m k := by
  simp [mapErase, List.filter_filter]

theorem reload_valid_id (s : S) (h : s.cat.valid = true) :
    reloadIfNeeded_inlock s = (.ok (), s) := by
  simp [reloadIfNeeded_inlock, h]

theorem reload_frame (s : S) :
    (reloadIfNeeded_inlock s).2.durable = s.durable ∧
    (reloadIfNeeded_inlock s).2.cat.viewGraph = s.cat.viewGraph ∧
    (reloadIfNeeded_inlock s).2.cat.viewGraphNeedsRefresh = s.cat.viewGraphNeedsRefresh ∧
    (reloadIfNeeded_inlock s).2.txn = s.txn := by
  unfold reloadIfNeeded_inlock
  cases h : s.cat.valid with
  | true => simp
  | false =>
      simp only [Bool.false_eq_true, if_false]
      cases hf : s.durable.failAfter with
      | none => simp
      | some ke => obtain ⟨k, e⟩ := ke; simp

theorem reload_ok_valid (s : S) :
    (reloadIfNeeded_inlock s).1 = .ok () → (reloadIfNeeded_inlock s).2.cat.valid = true := by
  unfold reloadIfNeeded_inlock
  cases h : s.cat.valid with
  | true => intro _; simpa using h
  | false =>
      simp only [Bool.false_eq_true, if_false]
      cases hf : s.durable.failAfter with
      | none => intro _; simp
      | some ke => obtain ⟨k, e⟩ := ke; intro hcontra; simp at hcontra

theorem doInsert_frame (vd : ViewDefinition) (b : Bool) (s : S) :
    (doInsert vd b s).2.cat.viewMap = s.cat.viewMap ∧
    (doInsert vd b s).2.cat.valid = s.cat.valid ∧
    (doInsert vd b s).2.cat.viewGraphNeedsRefresh = s.cat.viewGraphNeedsRefresh ∧
    (doInsert vd b s).2.durable = s.durable ∧
    (doInsert vd b s).2.txn = s.txn := by
  unfold doInsert
  cases hp : pipelineParse vd.pipeline with
  | error e => cases b <;> simp
  | ok involved =>
      cases b with
      | false => simp
      | true =>
          simp only []
          cases hiv : insertAndValidate s.cat.viewGraph vd.nameNss (involved ++ [vd.viewOnNss]) with
          | mk r g => cases r <;> simp

theorem replayViews_frame (views : List (String × ViewDefinition)) :
    ∀ s : S,
      (replayViews views s).2.cat.viewMap = s.cat.viewMap ∧
      (replayViews views s).2.cat.valid = s.cat.valid ∧
      (replayViews views s).2.cat.viewGraphNeedsRefresh = s.cat.viewGraphNeedsRefresh ∧
      (replayViews views s).2.durable = s.durable ∧
      (replayViews views s).2.txn = s.txn := by
  induction views with
  | nil => intro s; simp [replayViews]
  | cons hd tl ih =>
      intro s
      obtain ⟨k, vd⟩ := hd
      unfold replayViews
      have hf := doInsert_frame vd false s
      cases hdo : doInsert vd false s with
      | mk r s' =>
          rw [hdo] at hf
          cases r with
          | error e => simpa using hf
          | ok u =>
              have ht := ih s'
              simp only []
              exact ⟨ht.1.trans hf.1, ht.2.1.trans hf.2.1, ht.2.2.1.trans hf.2.2.1,
                     ht.2.2.2.1.trans hf.2.2.2.1, ht.2.2.2.2.trans hf.2.2.2.2⟩

theorem upsertIntoGraph_frame (vd : ViewDefinition) (s : S) :
    (upsertIntoGraph vd s).2.cat.viewMap = s.cat.viewMap ∧
    (upsertIntoGraph vd s).2.cat.valid = s.cat.valid ∧
    (upsertIntoGraph vd s).2.durable = s.durable ∧
    (upsertIntoGraph vd s).2.txn = s.txn := by
  unfold upsertIntoGraph
  cases hr : s.cat.viewGraphNeedsRefresh with
  | false =>
      simp only [Bool.false_eq_true, if_false]
      have hd := doInsert_frame vd true
        { s with cat := { s.cat with viewGraph := mapErase s.cat.viewGraph vd.nameNss.ns } }
      exact ⟨hd.1, hd.2.1, hd.2.2.2.1, hd.2.2.2.2⟩
  | true =>
      simp only [if_true]
      have hf := replayViews_frame s.cat.viewMap { s with cat := { s.cat with viewGraph := [] } }
      cases hrp : replayViews s.cat.viewMap { s with cat := { s.cat with viewGraph := [] } } with
      | mk r s1 =>
          rw [hrp] at hf
          simp only at hf
          cases r with
          | error e => exact ⟨hf.1, hf.2.1, hf.2.2.2.1, hf.2.2.2.2⟩
          | ok u =>
              simp only []
              refine ⟨((doInsert_frame _ _ _).1).trans ?_, ((doInsert_frame _ _ _).2.1).trans ?_,
                      ((doInsert_frame _ _ _).2.2.2.1).trans ?_,
                      ((doInsert_frame _ _ _).2.2.2.2).trans ?_⟩ <;>
                simp [hf.1, hf.2.1, hf.2.2.2.1, hf.2.2.2.2]

/-! ### Claim C1 -/

/-- C1: `resolveView` composes pipelines by prefixing — at each hop the
found view's pipeline stages are prepended to the accumulated pipeline,
so the innermost view's stages come first: for view `d.A` over `d.B`
with pipeline `[s1]` and view `d.B` over the physical collection `d.C`
with pipeline `[s2]`, `resolveView(d.A)` returns base namespace `d.C`
and pipeline `[s2, s1]`. -/
theorem resolveView_composes_by_prepending (s1 s2 : Stage) (h : s1.collStats = false) :
    (resolveView ⟨"d", "A"⟩ (chainABState s1 s2)).1 = .ok (⟨"d", "C"⟩, [s2, s1]) := by
  obtain ⟨t1, c1, r1, m1⟩ := s1
  obtain ⟨t2, c2, r2, m2⟩ := s2
  cases c1 with
  | false => cases c2 <;> rfl
  | true => simp at h

/-- Witness for C1 at concrete stages. -/
theorem resolveView_composes_by_prepending_witness :
    (plainStage "s1").collStats = false ∧
    (resolveView ⟨"d", "A"⟩ (chainABState (plainStage "s1") (plainStage "s2"))).1 =
      .ok (⟨"d", "C"⟩, [plainStage "s2", plainStage "s1"]) :=
  ⟨rfl, resolveView_composes_by_prepending (plainStage "s1") (plainStage "s2") rfl⟩

/-! ### Claim C8 -/

/-- C8: during `resolveView`, if the first stage of the just-prepended
view pipeline is a `$collStats` stage, resolution stops immediately and
returns the accumulated pipeline with that view's `viewOn` namespace as
the base — whatever that namespace maps to (in particular even if it
names a further view; the state `s` is unconstrained at `viewOn`). -/
theorem resolveView_collStats_short_circuit (fuel : Nat) (nss : NamespaceString)
    (acc : List Stage) (s : S) (v : ViewDefinition) (st : Stage) (rest : List Stage)
    (hvalid : s.cat.valid = true)
    (hfind : lookupKey s.cat.viewMap nss.ns = some v)
    (hpipe : v.pipeline = st :: rest)
    (hcs : st.collStats = true) :
    resolveViewLoop (fuel + 1) nss acc s = (.ok (v.viewOnNss, v.pipeline ++ acc), s) := by
  simp [resolveViewLoop, lookup_inlock, reload_valid_id s hvalid, hfind, hpipe, hcs]

/-- Witness for C8: view `d.V` over `d.C` with pipeline `[{$collStats}]`
resolves to base `d.C` with that pipeline although `d.C` is itself a
view (over `d.D`) in the catalog. -/
theorem resolveView_collStats_short_circuit_witness :
    (resolveView ⟨"d", "V"⟩ collStatsState).1 = .ok (⟨"d", "C"⟩, [collStatsStage]) := by
  have h := resolveView_collStats_short_circuit 19 ⟨"d", "V"⟩ [] collStatsState
    ⟨"d", "V", "C", [collStatsStage]⟩ collStatsStage [] rfl rfl rfl rfl
  exact congrArg Prod.fst h

/-! ### Claim C10 -/

theorem resolveViewLoop_valid_id :
    ∀ (fuel : Nat) (nss : NamespaceString) (acc : List Stage) (s : S),
      s.cat.valid = true → (resolveViewLoop fuel nss acc s).2 = s := by
  intro fuel
  induction fuel with
  | zero => intro nss acc s _; rfl
  | succ f ih =>
      intro nss acc s h
      unfold resolveViewLoop
      cases hk : lookupKey s.cat.viewMap nss.ns with
      | none => simp [lookup_inlock, reload_valid_id s h, hk]
      | some v =>
          cases hp : v.pipeline with
          | nil => simp [lookup_inlock, reload_valid_id s h, hk, hp, ih _ _ _ h]
          | cons st rest =>
              cases hcs : st.collStats <;>
                simp [lookup_inlock, reload_valid_id s h, hk, hp, hcs, ih _ _ _ h]

/-- C10: `lookup` and `resolveView` never write the durable store, never
touch the dependency graph or its refresh flag, and register no
transaction reactions; the only state they change is the cache and the
validity flag, and exactly as the lazy reload changes them (on a valid
cache they change nothing at all). -/
theorem lookup_resolveView_frame (ns : String) (nss : NamespaceString) (s : S) :
    (lookup ns s).2 = (reloadIfNeeded_inlock s).2 ∧
    (resolveView nss s).2 = (reloadIfNeeded_inlock s).2 ∧
    (reloadIfNeeded_inlock s).2.durable = s.durable ∧
    (reloadIfNeeded_inlock s).2.cat.viewGraph = s.cat.viewGraph ∧
    (reloadIfNeeded_inlock s).2.cat.viewGraphNeedsRefresh = s.cat.viewGraphNeedsRefresh ∧
    (reloadIfNeeded_inlock s).2.txn = s.txn ∧
    (s.cat.valid = true → (reloadIfNeeded_inlock s).2 = s) := by
  refine ⟨?_, ?_, (reload_frame s).1, (reload_frame s).2.1, (reload_frame s).2.2.1,
          (reload_frame s).2.2.2, fun h => by rw [reload_valid_id s h]⟩
  · unfold lookup lookup_inlock
    cases hr : reloadIfNeeded_inlock s with
    | mk r s' => cases r <;> rfl
  · show (resolveViewLoop (19 + 1) nss [] s).2 = _
    unfold resolveViewLoop
    cases hrel : reloadIfNeeded_inlock s with
    | mk r s' =>
        cases r with
        | error e => simp [lookup_inlock, hrel]
        | ok u =>
            cases u
            have hv : s'.cat.valid = true := by
              have hx := reload_ok_valid s
              rw [hrel] at hx
              exact hx rfl
            cases hk : lookupKey s'.cat.viewMap nss.ns with
            | none => simp [lookup_inlock, hrel, hk]
            | some v =>
                cases hp : v.pipeline with
                | nil => simp [lookup_inlock, hrel, hk, hp, resolveViewLoop_valid_id _ _ _ _ hv]
                | cons st rest =>
                    cases hcs : st.collStats <;>
                      simp [lookup_inlock, hrel, hk, hp, hcs,
                            resolveViewLoop_valid_id _ _ _ _ hv]

/-- Witness for C10 on a concrete valid catalog. -/
theorem lookup_resolveView_frame_witness :
    (lookup "d.v" rollbackState).2 = (reloadIfNeeded_inlock rollbackState).2 ∧
    (resolveView ⟨"d", "v"⟩ rollbackState).2 = (reloadIfNeeded_inlock rollbackState).2 ∧
    (reloadIfNeeded_inlock rollbackState).2 = rollbackState :=
  ⟨(lookup_resolveView_frame "d.v" ⟨"d", "v"⟩ rollbackState).1,
   (lookup_resolveView_frame "d.v" ⟨"d", "v"⟩ rollbackState).2.1,
   (lookup_resolveView_frame "d.v" ⟨"d", "v"⟩ rollbackState).2.2.2.2.2.2 rfl⟩

/-! ### Claim C4 -/

/-- C4: `reloadIfNeeded` is a no-op returning success when the validity
flag is set.  When it is unset it clears the cache and installs a
reconstructed definition per document the store iteration delivers; if
the iteration completes, the flag becomes true and the whole store's
contents are installed; if the iteration fails after `k` documents, the
underlying error is returned, the cache holds exactly the `k` delivered
documents (partially populated), and the flag stays unset. -/
theorem reloadIfNeeded_contract (s : S) :
    (s.cat.valid = true → reloadIfNeeded s = (.ok (), s)) ∧
    (s.cat.valid = false → s.durable.failAfter = none →
      reloadIfNeeded s = (.ok (),
        { s with cat := { s.cat with
            viewMap := installDocs (s.durable.docs.map (·.2)), valid := true } })) ∧
    (∀ k e, s.cat.valid = false → s.durable.failAfter = some (k, e) →
      (reloadIfNeeded s).1 = .error e ∧
      (reloadIfNeeded s).2.cat.viewMap = installDocs ((s.durable.docs.map (·.2)).take k) ∧
      (reloadIfNeeded s).2.cat.valid = false) := by
  refine ⟨fun h => reload_valid_id s h, fun h hf => ?_, fun k e h hf => ?_⟩
  · simp [reloadIfNeeded, reloadIfNeeded_inlock, DurableStore.delivered, installDocs, h, hf]
  · simp [reloadIfNeeded, reloadIfNeeded_inlock, DurableStore.delivered, installDocs, h, hf]

/-- Witness for C4: a failing iteration delivers one of two documents;
the cache ends up with just that document, the flag stays unset, and the
store error is returned. -/
theorem reloadIfNeeded_contract_witness :
    (reloadIfNeeded failingStoreState).1 = .error .storeIOError ∧
    (reloadIfNeeded failingStoreState).2.cat.viewMap =
      installDocs ((failingStoreState.durable.docs.map (·.2)).take 1) ∧
    (reloadIfNeeded failingStoreState).2.cat.valid = false :=
  (reloadIfNeeded_contract failingStoreState).2.2 1 .storeIOError rfl rfl

/-! ### Claim C5 -/

/-- C5: `createView`'s precondition checks happen in this order — a
disabled feature gives `CommandNotSupported`; then a cross-database
target gives `BadValue`; then an existing namespace (a cache hit for the
name) gives `NamespaceExists`; then a malformed target collection name
gives `InvalidNamespace`; only otherwise does the call reach the shared
create-or-update path. -/
theorem createView_precheck_order (enable : Bool) (validName : String → Bool)
    (viewName viewOn : NamespaceString) (pipeline : List Stage) (s : S)
    (hvalid : s.cat.valid = true) :
    (enable = false →
      createView enable validName viewName viewOn pipeline s =
        (.error .commandNotSupported, s)) ∧
    (enable = true → viewName.db ≠ viewOn.db →
      createView enable validName viewName viewOn pipeline s = (.error .badValue, s)) ∧
    (∀ v, enable = true → viewName.db = viewOn.db →
      lookupKey s.cat.viewMap viewName.ns = some v →
      createView enable validName viewName viewOn pipeline s =
        (.error .namespaceExists, s)) ∧
    (enable = true → viewName.db = viewOn.db →
      lookupKey s.cat.viewMap viewName.ns = none → validName viewOn.coll = false →
      createView enable validName viewName viewOn pipeline s =
        (.error .invalidNamespace, s)) ∧
    (enable = true → viewName.db = viewOn.db →
      lookupKey s.cat.viewMap viewName.ns = none → validName viewOn.coll = true →
      createView enable validName viewName viewOn pipeline s =
        createOrUpdateView_inlock viewName viewOn pipeline s) := by
  have hlk : lookup_inlock viewName.ns s =
      (.ok (lookupKey s.cat.viewMap viewName.ns), s) := by
    simp [lookup_inlock, reload_valid_id s hvalid]
  refine ⟨fun he => ?_, fun he hdb => ?_, fun v he hdb hv => ?_,
          fun he hdb hv hn => ?_, fun he hdb hv hn => ?_⟩
  · simp [createView, he]
  · have h' : (viewName.db != viewOn.db) = true := by simp [hdb]
    simp [createView, he, h']
  · have h' : (viewName.db != viewOn.db) = false := by simp [hdb]
    simp [createView, he, h', hlk, hv]
  · have h' : (viewName.db != viewOn.db) = false := by simp [hdb]
    simp [createView, he, h', hlk, hv, hn]
  · have h' : (viewName.db != viewOn.db) = false := by simp [hdb]
    simp [createView, he, h', hlk, hv, hn]

/-- Witness for C5: creating over an already existing view name fails
with `NamespaceExists` and leaves the state untouched. -/
theorem createView_precheck_order_witness :
    createView true (fun _ => true) ⟨"d", "v"⟩ ⟨"d", "c"⟩ [] rollbackState =
      (.error .namespaceExists, rollbackState) :=
  (createView_precheck_order true (fun _ => true) ⟨"d", "v"⟩ ⟨"d", "c"⟩ [] rollbackState
    rfl).2.2.1 rollbackOldDef rfl rfl rfl

/-! ### Claim C6 -/

/-- Counterexample to C6 as stated: updating view `d.a` (currently with
an edge to `d.b` in the graph) to the self-referential definition
`d.a over d.a` fails the cycle check, but the graph after the call is
empty rather than equal to the graph before the call — the pre-existing
node and edge for `d.a` were removed by the pre-insert removal and are
not restored. -/
theorem upsertIntoGraph_update_failure_counterexample :
    (upsertIntoGraph selfRefUpdate graphUpdateState).1 = .error .graphCycleOrTooDeep ∧
    (upsertIntoGraph selfRefUpdate graphUpdateState).2.cat.viewGraph = [] ∧
    (upsertIntoGraph selfRefUpdate graphUpdateState).2.cat.viewGraph ≠
      graphUpdateState.cat.viewGraph := by
  refine ⟨by decide, by decide, by decide⟩

/-- C6 amended: when a validated insert of view `V` fails the
cycle/depth check (with a fresh graph), the newly added edges for `V`
are rolled back, but the whole call leaves the graph equal to the
pre-call graph with `V`'s node erased — in the update case `V`'s
pre-existing node and edges are gone, not restored.  The cache and the
durable store are untouched. -/
theorem upsertIntoGraph_failure_erases_node (vd : ViewDefinition) (s s' : S)
    (hnr : s.cat.viewGraphNeedsRefresh = false)
    (hfail : upsertIntoGraph vd s = (.error .graphCycleOrTooDeep, s')) :
    s'.cat.viewGraph = mapErase s.cat.viewGraph vd.nameNss.ns ∧
    s'.cat.viewMap = s.cat.viewMap ∧ s'.durable = s.durable := by
  unfold upsertIntoGraph at hfail
  simp only [hnr, Bool.false_eq_true, if_false] at hfail
  unfold doInsert at hfail
  cases hp : pipelineParse vd.pipeline with
  | error e => rw [hp] at hfail; simp at hfail
  | ok involved =>
      rw [hp] at hfail
      simp only [if_true] at hfail
      unfold insertAndValidate at hfail
      simp only [] at hfail
      cases hc : graphCheck
          (mapInsert (mapErase s.cat.viewGraph vd.nameNss.ns) vd.nameNss.ns
            (involved ++ [vd.viewOnNss]))
          (kMaxViewDepth + 1) [] vd.nameNss.ns with
      | true => rw [hc] at hfail; simp at hfail
      | false =>
          rw [hc] at hfail
          simp only [Bool.false_eq_true, if_false] at hfail
          rw [Prod.mk.injEq] at hfail
          obtain ⟨-, hs'⟩ := hfail
          subst hs'
          refine ⟨?_, rfl, rfl⟩
          simp [mapErase_mapInsert, mapErase_idem]

/-- Witness for the amended C6 on the self-reference update scenario. -/
theorem upsertIntoGraph_failure_erases_node_witness :
    (upsertIntoGraph selfRefUpdate graphUpdateState).2.cat.viewGraph =
      mapErase graphUpdateState.cat.viewGraph "d.a" ∧
    (upsertIntoGraph selfRefUpdate graphUpdateState).2.cat.viewMap =
      graphUpdateState.cat.viewMap ∧
    (upsertIntoGraph selfRefUpdate graphUpdateState).2.durable =
      graphUpdateState.durable :=
  upsertIntoGraph_failure_erases_node selfRefUpdate graphUpdateState _ rfl rfl

/-! ### Claim C7 -/

theorem replayViews_result (views : List (String × ViewDefinition)) :
    ∀ s : S,
      (∀ t, firstReplayError views = some t →
        (replayViews views s).1 = .error (.pipelineParseError t)) ∧
      (firstReplayError views = none → (replayViews views s).1 = .ok ()) := by
  induction views with
  | nil =>
      intro s
      exact ⟨fun t ht => by simp [firstReplayError] at ht, fun _ => by simp [replayViews]⟩
  | cons hd tl ih =>
      intro s
      obtain ⟨k, vd⟩ := hd
      unfold replayViews firstReplayError
      cases hm : vd.pipeline.find? (·.malformed) with
      | some st =>
          have hdo : doInsert vd false s = (.error (.pipelineParseError st.tag), s) := by
            simp [doInsert, pipelineParse, hm]
          refine ⟨fun t ht => ?_, fun ht => by simp at ht⟩
          simp only [Option.some.injEq] at ht
          subst ht
          simp [hdo]
      | none =>
          have hdo : doInsert vd false s =
              (.ok (), { s with cat := { s.cat with
                viewGraph := insertWithoutValidating s.cat.viewGraph vd.nameNss
                  ((vd.pipeline.foldr (fun st acc => st.refs ++ acc) []) ++
                    [vd.viewOnNss]) } }) := by
            simp [doInsert, pipelineParse, hm]
          rw [hdo]
          simp only []
          exact ih _

/-- C7: when a validated insert triggers a graph refresh and replaying a
cached view fails to resolve, `_upsertIntoGraph` returns that resolver
failure — a `pipelineParseError`, not a cycle/depth error — and leaves
`needsRefresh` set; `needsRefresh` is cleared (and stays cleared for the
rest of the call) exactly when every cached view replays without
error. -/
theorem refresh_failure_surfaces_resolver_error (vd : ViewDefinition) (s : S)
    (hnr : s.cat.viewGraphNeedsRefresh = true) :
    (∀ t, firstReplayError s.cat.viewMap = some t →
      (upsertIntoGraph vd s).1 = .error (.pipelineParseError t) ∧
      (upsertIntoGraph vd s).2.cat.viewGraphNeedsRefresh = true) ∧
    (firstReplayError s.cat.viewMap = none →
      (upsertIntoGraph vd s).2.cat.viewGraphNeedsRefresh = false) := by
  unfold upsertIntoGraph
  simp only [hnr, if_true]
  have hres := replayViews_result s.cat.viewMap
    { s with cat := { s.cat with viewGraph := [], viewGraphNeedsRefresh := true } }
  have hfr := replayViews_frame s.cat.viewMap
    { s with cat := { s.cat with viewGraph := [], viewGraphNeedsRefresh := true } }
  cases hrp : replayViews s.cat.viewMap
      { s with cat := { s.cat with viewGraph := [], viewGraphNeedsRefresh := true } } with
  | mk r s1 =>
      rw [hrp] at hres hfr
      constructor
      · intro t ht
        have h1 : r = .error (.pipelineParseError t) := hres.1 t ht
        subst h1
        exact ⟨rfl, hfr.2.2.1⟩
      · intro ht
        have h1 : r = .ok () := hres.2 ht
        subst h1
        exact (doInsert_frame _ _ _).2.2.1

/-- Witness for C7: with a stale graph and a cached view whose pipeline
the resolver rejects, the validated insert returns that parse failure
and `needsRefresh` stays set. -/
theorem refresh_failure_surfaces_resolver_error_witness :
    (upsertIntoGraph ⟨"d", "n", "c", []⟩ staleGraphState).1 =
      .error (.pipelineParseError "bad") ∧
    (upsertIntoGraph ⟨"d", "n", "c", []⟩ staleGraphState).2.cat.viewGraphNeedsRefresh =
      true :=
  (refresh_failure_surfaces_resolver_error ⟨"d", "n", "c", []⟩ staleGraphState rfl).1
    "bad" rfl

/-! ### Inversion lemmas for the mutation paths -/

theorem lookup_inlock_snd (ns : String) (s : S) :
    (lookup_inlock ns s).2 = (reloadIfNeeded_inlock s).2 := by
  unfold lookup_inlock
  cases hr : reloadIfNeeded_inlock s with
  | mk r s' => cases r <;> rfl

theorem createOrUpdate_ok_inv (viewName viewOn : NamespaceString)
    (pipeline : List Stage) (s₁ s₂ : S)
    (h : createOrUpdateView_inlock viewName viewOn pipeline s₁ = (.ok (), s₂)) :
    s₂.cat.viewMap = mapInsert s₁.cat.viewMap viewName.ns
      ⟨viewName.db, viewName.coll, viewOn.coll, pipeline⟩ ∧
    s₂.cat.valid = s₁.cat.valid ∧
    s₂.txn.rollbackReactions = s₁.txn.rollbackReactions ++
      [fun c => { c with viewMap := mapErase c.viewMap viewName.ns,
                         viewGraphNeedsRefresh := true }] := by
  unfold createOrUpdateView_inlock at h
  have hfr := upsertIntoGraph_frame ⟨viewName.db, viewName.coll, viewOn.coll, pipeline⟩ s₁
  cases hup : upsertIntoGraph ⟨viewName.db, viewName.coll, viewOn.coll, pipeline⟩ s₁ with
  | mk r su =>
      rw [hup] at h hfr
      cases r with
      | error e => simp at h
      | ok u =>
          rw [Prod.mk.injEq] at h
          obtain ⟨-, hs⟩ := h
          subst hs
          have h1 : su.cat.viewMap = s₁.cat.viewMap := hfr.1
          have h2 : su.cat.valid = s₁.cat.valid := hfr.2.1
          have h4 : su.txn = s₁.txn := hfr.2.2.2
          refine ⟨by simp [h1], h2, by simp [h4]⟩

theorem createOrUpdate_error_frame (viewName viewOn : NamespaceString)
    (pipeline : List Stage) (s₁ : S) (e : Err)
    (h : (createOrUpdateView_inlock viewName viewOn pipeline s₁).1 = .error e) :
    (createOrUpdateView_inlock viewName viewOn pipeline s₁).2.durable = s₁.durable ∧
    (createOrUpdateView_inlock viewName viewOn pipeline s₁).2.cat.viewMap =
      s₁.cat.viewMap := by
  unfold createOrUpdateView_inlock at h ⊢
  have hfr := upsertIntoGraph_frame ⟨viewName.db, viewName.coll, viewOn.coll, pipeline⟩ s₁
  cases hup : upsertIntoGraph ⟨viewName.db, viewName.coll, viewOn.coll, pipeline⟩ s₁ with
  | mk r su =>
      rw [hup] at h hfr
      cases r with
      | error e' =>
          have hd : su.durable = s₁.durable := hfr.2.2.1
          have hm : su.cat.viewMap = s₁.cat.viewMap := hfr.1
          exact ⟨hd, hm⟩
      | ok u => simp at h

/-! ### Claim C2 -/

/-- Counterexample to C2 as stated: with the rollback reactions fired at
most once and in registration order (as the spec's transaction-host
interface stipulates), a successful `modifyView` of view `d.v` from
pipeline `[p1]` to `[p2]` followed by an abort leaves the catalog with
no entry for `d.v` at all: the restore reaction registered by
`modifyView` runs first and the erase reaction registered by the shared
create-or-update path then deletes the restored entry, so the later
lookup returns no view rather than the pipeline `[p1]` definition. -/
theorem modifyView_rollback_registration_order_counterexample :
    (modifyView (fun _ => true) ⟨"d", "v"⟩ ⟨"d", "c"⟩ [plainStage "p2"]
        rollbackState).1 = .ok () ∧
    (lookup "d.v" (abortTxnInRegistrationOrder
        (modifyView (fun _ => true) ⟨"d", "v"⟩ ⟨"d", "c"⟩ [plainStage "p2"]
          rollbackState).2)).1 = .ok none ∧
    (Except.ok none : Except Err (Option ViewDefinition)) ≠ .ok (some rollbackOldDef) := by
  refine ⟨by decide, by decide, by decide⟩

/-- C2 amended: the restoration holds when the rollback reactions run in
reverse registration order (last registered first, the discipline the
upstream recovery unit implements): after a successful `modifyView` of
existing view `V` in a fresh transaction that then aborts, a later
lookup of `V` returns the saved old definition (with its pipeline
`P1`). -/
theorem modifyView_rollback_reverse_order_restores
    (validName : String → Bool) (viewName viewOn : NamespaceString)
    (pipeline : List Stage) (s s' : S) (old : ViewDefinition)
    (hro : s.txn.rollbackReactions = [])
    (hvalid : s.cat.valid = true)
    (hold : lookupKey s.cat.viewMap viewName.ns = some old)
    (hok : modifyView validName viewName viewOn pipeline s = (.ok (), s')) :
    (lookup viewName.ns (abortTxnInReverseOrder s')).1 = .ok (some old) := by
  unfold modifyView at hok
  have hlk : lookup_inlock viewName.ns s = (.ok (some old), s) := by
    simp [lookup_inlock, reload_valid_id s hvalid, hold]
  cases hdb : viewName.db != viewOn.db with
  | true => rw [hdb] at hok; simp at hok
  | false =>
      rw [hdb] at hok
      simp only [Bool.false_eq_true, if_false] at hok
      rw [hlk] at hok
      cases hvn : validName viewOn.coll with
      | false => rw [hvn] at hok; simp at hok
      | true =>
          rw [hvn] at hok
          simp only [Bool.not_true, Bool.false_eq_true, if_false] at hok
          obtain ⟨hmap, hval, hrb⟩ := createOrUpdate_ok_inv _ _ _ _ _ hok
          have hv2 : s'.cat.valid = true := by
            rw [hval]; exact hvalid
          simp only [hro] at hrb
          simp [lookup, lookup_inlock, reloadIfNeeded_inlock, abortTxnInReverseOrder,
                applyReactions, hrb, hv2, lookupKey_mapInsert_self]

/-- Witness for the amended C2 on the concrete rollback scenario. -/
theorem modifyView_rollback_reverse_order_restores_witness :
    (lookup "d.v" (abortTxnInReverseOrder
        (modifyView (fun _ => true) ⟨"d", "v"⟩ ⟨"d", "c"⟩ [plainStage "p2"]
          rollbackState).2)).1 = .ok (some rollbackOldDef) :=
  modifyView_rollback_reverse_order_restores (fun _ => true) ⟨"d", "v"⟩ ⟨"d", "c"⟩
    [plainStage "p2"] rollbackState _ rollbackOldDef rfl rfl rfl rfl

/-! ### Claim C3 -/

/-- Counterexample to C3 as stated: on a catalog whose cache is invalid
and holds a stale entry `d.x` absent from the durable store, a
`createView` of the self-referential view `d.b` fails dependency-graph
validation, yet the cache mapping after the failed call (emptied and
repopulated by the lazy reload that ran before validation) differs from
the cache mapping before it.  The durable store is still untouched. -/
theorem createView_validation_failure_counterexample :
    (createView true (fun _ => true) ⟨"d", "b"⟩ ⟨"d", "b"⟩ [] staleCacheState).1 =
      .error .graphCycleOrTooDeep ∧
    (createView true (fun _ => true) ⟨"d", "b"⟩ ⟨"d", "b"⟩ [] staleCacheState).2.cat.viewMap ≠
      staleCacheState.cat.viewMap ∧
    (createView true (fun _ => true) ⟨"d", "b"⟩ ⟨"d", "b"⟩ [] staleCacheState).2.durable =
      staleCacheState.durable := by
  refine ⟨by decide, by decide, by decide⟩

/-- C3 amended: a `createView` or `modifyView` call that fails
dependency-graph validation returns the validation error, never writes
the durable store (its contents after the call equal those before), and
performs no insertion or replacement in the cache beyond the lazy
reload: the cache mapping after the failed call equals its value
immediately after the reload — in particular it equals the pre-call
mapping whenever the cache was valid at entry. -/
theorem validation_failure_no_cache_or_durable_write
    (enable : Bool) (validName : String → Bool) (viewName viewOn : NamespaceString)
    (pipeline : List Stage) (s : S) (e : Err) :
    ((createView enable validName viewName viewOn pipeline s).1 = .error e →
      isValidationErr e = true →
      (createView enable validName viewName viewOn pipeline s).2.durable = s.durable ∧
      (createView enable validName viewName viewOn pipeline s).2.cat.viewMap =
        (reloadIfNeeded_inlock s).2.cat.viewMap) ∧
    ((modifyView validName viewName viewOn pipeline s).1 = .error e →
      isValidationErr e = true →
      (modifyView validName viewName viewOn pipeline s).2.durable = s.durable ∧
      (modifyView validName viewName viewOn pipeline s).2.cat.viewMap =
        (reloadIfNeeded_inlock s).2.cat.viewMap) := by
  have hrd : (reloadIfNeeded_inlock s).2.durable = s.durable := (reload_frame s).1
  constructor
  · intro herr hval
    unfold createView at herr ⊢
    cases enable with
    | false => simp at herr; subst herr; simp [isValidationErr] at hval
    | true =>
        cases hdb : viewName.db != viewOn.db with
        | true =>
            rw [hdb] at herr
            simp at herr; subst herr; simp [isValidationErr] at hval
        | false =>
            rw [hdb] at herr
            simp only [Bool.false_eq_true, if_false, Bool.not_false, if_true] at herr ⊢
            have hsnd := lookup_inlock_snd viewName.ns s
            cases hlk : lookup_inlock viewName.ns s with
            | mk lr ls =>
                rw [hlk] at herr hsnd
                have hls : ls = (reloadIfNeeded_inlock s).2 := hsnd
                cases lr with
                | error e' =>
                    refine ⟨?_, ?_⟩
                    · show ls.durable = s.durable
                      rw [hls]; exact hrd
                    · show ls.cat.viewMap = (reloadIfNeeded_inlock s).2.cat.viewMap
                      rw [hls]
                | ok mv =>
                    cases mv with
                    | some v =>
                        simp at herr; subst herr; simp [isValidationErr] at hval
                    | none =>
                        cases hvn : validName viewOn.coll with
                        | false =>
                            rw [hvn] at herr
                            simp at herr; subst herr; simp [isValidationErr] at hval
                        | true =>
                            rw [hvn] at herr
                            simp only [Bool.not_true, Bool.false_eq_true, if_false] at herr ⊢
                            have hcf := createOrUpdate_error_frame _ _ _ _ _ herr
                            refine ⟨hcf.1.trans ?_, hcf.2.trans ?_⟩
                            · rw [hls]; exact hrd
                            · rw [hls]
  · intro herr hval
    unfold modifyView at herr ⊢
    cases hdb : viewName.db != viewOn.db with
    | true =>
        rw [hdb] at herr
        simp at herr; subst herr; simp [isValidationErr] at hval
    | false =>
        rw [hdb] at herr
        simp only [Bool.false_eq_true, if_false] at herr ⊢
        have hsnd := lookup_inlock_snd viewName.ns s
        cases hlk : lookup_inlock viewName.ns s with
        | mk lr ls =>
            rw [hlk] at herr hsnd
            have hls : ls = (reloadIfNeeded_inlock s).2 := hsnd
            cases lr with
            | error e' =>
                refine ⟨?_, ?_⟩
                · show ls.durable = s.durable
                  rw [hls]; exact hrd
                · show ls.cat.viewMap = (reloadIfNeeded_inlock s).2.cat.viewMap
                  rw [hls]
            | ok mv =>
                cases mv with
                | none =>
                    simp at herr; subst herr; simp [isValidationErr] at hval
                | some v =>
                    cases hvn : validName viewOn.coll with
                    | false =>
                        rw [hvn] at herr
                        simp at herr; subst herr; simp [isValidationErr] at hval
                    | true =>
                        rw [hvn] at herr
                        simp only [Bool.not_true, Bool.false_eq_true, if_false] at herr ⊢
                        have hcf := createOrUpdate_error_frame _ _ _ _ _ herr
                        refine ⟨hcf.1.trans ?_, hcf.2.trans ?_⟩
                        · show ls.durable = s.durable
                          rw [hls]; exact hrd
                        · show ls.cat.viewMap = (reloadIfNeeded_inlock s).2.cat.viewMap
                          rw [hls]

/-- Witness for the amended C3: a failing self-referential create on a
valid catalog leaves both the cache mapping and the durable contents
unchanged. -/
theorem validation_failure_no_cache_or_durable_write_witness :
    (createView true (fun _ => true) ⟨"d", "b"⟩ ⟨"d", "b"⟩ [] rollbackState).2.durable =
      rollbackState.durable ∧
    (createView true (fun _ => true) ⟨"d", "b"⟩ ⟨"d", "b"⟩ [] rollbackState).2.cat.viewMap =
      (reloadIfNeeded_inlock rollbackState).2.cat.viewMap :=
  (validation_failure_no_cache_or_durable_write true (fun _ => true) ⟨"d", "b"⟩ ⟨"d", "b"⟩
    [] rollbackState .graphCycleOrTooDeep).1 (by decide) (by decide)

/-! ### Claim C9 -/

theorem replicate_succ_append {α : Type} (m : Nat) (a : α) (l : List α) :
    List.replicate (m + 1) a ++ l = List.replicate m a ++ (a :: l) := by
  induction m with
  | zero => simp
  | succ m ih => simp only [List.replicate_succ, List.cons_append] at ih ⊢; rw [ih]

theorem chainData_inj {i j : Nat}
    (h : (chainColl i).data = (chainColl j).data) : i = j := by
  have h2 := congrArg List.length h
  simp [chainColl] at h2
  omega

theorem chainNs_inj {i j : Nat} (h : (chainNss i).ns = (chainNss j).ns) : i = j := by
  apply chainData_inj
  have h2 := congrArg String.data h
  simp only [NamespaceString.ns, chainNss, String.data_append] at h2
  simpa using h2

theorem lookupKey_chainMap (st : Stage) :
    ∀ n k : Nat, lookupKey (chainMap n st) (chainNss k).ns =
      if k < n then some (chainDef k st) else none := by
  intro n
  induction n with
  | zero => intro k; simp [chainMap, lookupKey]
  | succ n ih =>
      intro k
      by_cases hk : k = n
      · subst hk
        simp [chainMap, lookupKey, List.find?]
      · have hne : ((chainNss n).ns == (chainNss k).ns) = false := by
          rw [beq_eq_false_iff_ne]
          intro hcontra
          exact hk (chainNs_inj hcontra).symm
        have ih' := ih k
        simp only [lookupKey] at ih' ⊢
        simp only [chainMap, List.find?, hne]
        rw [ih']
        by_cases hlt : k < n
        · simp [hlt, Nat.lt_succ_of_lt hlt]
        · have h2 : ¬ k < n + 1 := by omega
          simp [hlt, h2]

theorem chain_resolveLoop (st : Stage) (hst : st.collStats = false) (n : Nat) :
    ∀ (fuel k : Nat) (acc : List Stage), k ≤ n →
      resolveViewLoop fuel (chainNss k) acc (chainState n st) =
        (if n - k < fuel
         then .ok (chainNss n, List.replicate (n - k) st ++ acc)
         else .error .viewDepthLimitExceeded,
         chainState n st) := by
  intro fuel
  induction fuel with
  | zero =>
      intro k acc hk
      simp [resolveViewLoop]
  | succ f ih =>
      intro k acc hk
      have hlk : lookup_inlock (chainNss k).ns (chainState n st) =
          (.ok (lookupKey (chainMap n st) (chainNss k).ns), chainState n st) := rfl
      rcases Nat.lt_or_ge k n with hkn | hkn
      · have hfind : lookupKey (chainMap n st) (chainNss k).ns = some (chainDef k st) := by
          rw [lookupKey_chainMap st n k]
          simp [hkn]
        have hview : (chainDef k st).viewOnNss = chainNss (k + 1) := rfl
        have hpipe : (chainDef k st).pipeline = [st] := rfl
        have hrec := ih (k + 1) (st :: acc) (by omega)
        simp only [resolveViewLoop, hlk, hfind, hpipe, hview, hst, Bool.false_eq_true,
                   if_false, List.singleton_append]
        rw [hrec]
        have h1 : n - k = (n - (k + 1)) + 1 := by omega
        rw [h1, replicate_succ_append]
        simp only [Nat.add_lt_add_iff_right]
      · have hkn' : k = n := by omega
        subst hkn'
        have hfind : lookupKey (chainMap k st) (chainNss k).ns = none := by
          rw [lookupKey_chainMap st k k]
          simp
        simp only [resolveViewLoop, hlk, hfind]
        simp

/-- C9: for the chain of `n` views (no collection-statistics stages)
ending at a physical collection, `resolveView` on the chain's head
succeeds exactly when `n < kMaxViewDepth` — the final lookup that
discovers the physical collection consumes one of the `kMaxViewDepth`
loop iterations — and for `n ≥ kMaxViewDepth` (in particular a chain of
exactly `kMaxViewDepth` views) it fails with `ViewDepthLimitExceeded`. -/
theorem resolveView_chain_depth_bound (n : Nat) (st : Stage) (hst : st.collStats = false) :
    (n < kMaxViewDepth →
      (resolveView (chainNss 0) (chainState n st)).1 =
        .ok (chainNss n, List.replicate n st)) ∧
    (kMaxViewDepth ≤ n →
      (resolveView (chainNss 0) (chainState n st)).1 = .error .viewDepthLimitExceeded) := by
  have h := chain_resolveLoop st hst n kMaxViewDepth 0 [] (Nat.zero_le n)
  rw [Nat.sub_zero] at h
  have h1 := congrArg Prod.fst h
  constructor
  · intro hn
    simp only [resolveView]
    rw [h1]
    simp [hn]
  · intro hn
    simp only [resolveView]
    rw [h1]
    simp [Nat.not_lt.mpr hn]

/-- Witness for C9: a chain of three views resolves to the physical
namespace with three copies of the stage. -/
theorem resolveView_chain_depth_bound_witness :
    (plainStage "s").collStats = false ∧
    (resolveView (chainNss 0) (chainState 3 (plainStage "s"))).1 =
      .ok (chainNss 3, List.replicate 3 (plainStage "s")) :=
  ⟨rfl, (resolveView_chain_depth_bound 3 (plainStage "s") rfl).1 (by decide)⟩

end MongoViewCatalog
